import Mathlib

/-!
Verification of the RHINO coregistration pipeline
(`osl/source_recon/rhino/rhino.py`).

The pipeline is embedded shallowly: matrices are exact rational 4x4
homogeneous affines, external collaborators (the rigid solver core and the
ICP core from `rhino_utils`, which are not part of the sources at hand) are
oracle parameters of the model, and the run of `coreg` is recorded as a
trace of filesystem effects, a list of ICP invocations and an
`Except`-valued result.
-/

namespace OSL

/-! ### Exact linear algebra over the rationals -/

abbrev Pt := Fin 3 → ℚ
abbrev Mat3 := Matrix (Fin 3) (Fin 3) ℚ
abbrev Mat4 := Matrix (Fin 4) (Fin 4) ℚ

/-- Determinant of a 3x3 array of scalars, written out. -/
def det3s (a b c d e f g h i : ℚ) : ℚ :=
  a * (e * i - f * h) - b * (d * i - f * g) + c * (d * h - e * g)

/-- The 3x3 minor of a 4x4 matrix given by three rows and three columns. -/
def minor3 (A : Mat4) (r0 r1 r2 c0 c1 c2 : Fin 4) : ℚ :=
  det3s (A r0 c0) (A r0 c1) (A r0 c2)
        (A r1 c0) (A r1 c1) (A r1 c2)
        (A r2 c0) (A r2 c1) (A r2 c2)

/-- Determinant of a 4x4 rational matrix (cofactor expansion along row 0). -/
def det4 (A : Mat4) : ℚ :=
  A 0 0 * minor3 A 1 2 3 1 2 3
  - A 0 1 * minor3 A 1 2 3 0 2 3
  + A 0 2 * minor3 A 1 2 3 0 1 3
  - A 0 3 * minor3 A 1 2 3 0 1 2

/-- Adjugate (transposed cofactor matrix) of a 4x4 rational matrix. -/
def adj4 (A : Mat4) : Mat4 :=
  Matrix.of
    ![![ minor3 A 1 2 3 1 2 3, -(minor3 A 0 2 3 1 2 3),
         minor3 A 0 1 3 1 2 3, -(minor3 A 0 1 2 1 2 3)],
      ![-(minor3 A 1 2 3 0 2 3), minor3 A 0 2 3 0 2 3,
        -(minor3 A 0 1 3 0 2 3), minor3 A 0 1 2 0 2 3],
      ![ minor3 A 1 2 3 0 1 3, -(minor3 A 0 2 3 0 1 3),
         minor3 A 0 1 3 0 1 3, -(minor3 A 0 1 2 0 1 3)],
      ![-(minor3 A 1 2 3 0 1 2), minor3 A 0 2 3 0 1 2,
        -(minor3 A 0 1 3 0 1 2), minor3 A 0 1 2 0 1 2]]

/-- Explicit inverse of a 4x4 rational matrix (adjugate over determinant). -/
def inv4 (A : Mat4) : Mat4 := (det4 A)⁻¹ • adj4 A

/-- Errors a `coreg` run can abort with, mirroring the Python exceptions:
`KeyError` from `os.environ`, `FileNotFoundError`-style missing inputs
reported with the offending path, the `ValueError` for a bad fif filename,
the insufficient-data failure of the alignment routines, and
`numpy.linalg.LinAlgError` on singular matrices. -/
inductive CoregError where
  | keyErrorFSLDIR : CoregError
  | missingInput : String → CoregError
  | invalidFif : CoregError
  | insufficientCorrespondence : CoregError
  | singularTransform : CoregError
  deriving DecidableEq, Repr

/-- Model of `numpy.linalg.inv` on 4x4 arrays: raises on a singular input,
otherwise returns the exact inverse. -/
def linalgInv (A : Mat4) : Except CoregError Mat4 :=
  if det4 A = 0 then .error .singularTransform else .ok (inv4 A)

/-- Homogeneous coordinates of a 3d point. -/
def toHomog (p : Pt) : Fin 4 → ℚ := ![p 0, p 1, p 2, 1]

/-- Modelled from the spec: `apply_transform` / `rhino_utils.xform_points`
(not under the sources at hand) applies a 4x4 homogeneous affine transform to
a 3d point. -/
def xformPoint (T : Mat4) (p : Pt) : Pt :=
  let v := Matrix.mulVec T (toHomog p)
  ![v 0, v 1, v 2]

/-- Modelled from the spec: `rhino_utils.xform_points` on a point cloud,
preserving point count and ordering. -/
def xform_points (T : Mat4) (ps : List Pt) : List Pt := ps.map (xformPoint T)

/-- Known locations of MNI derived fiducials in MNI coords in mm (nasion). -/
def mni_nasion_mni : Pt := ![1, 85, -41]

/-- Known locations of MNI derived fiducials in MNI coords in mm (rpa). -/
def mni_rpa_mni : Pt := ![83, -20, -65]

/-- Known locations of MNI derived fiducials in MNI coords in mm (lpa). -/
def mni_lpa_mni : Pt := ![-83, -20, -65]

/-! ### Filesystem-visible pieces of the model -/

/-- A filesystem effect of a run: an idempotent directory creation
(`os.makedirs(..., exist_ok=True)`) or a file write. -/
inductive Effect where
  | mkdirP : String → Effect
  | write : String → Effect
  deriving DecidableEq, Repr

/-- Whether an effect writes a file. -/
def Effect.isWrite : Effect → Bool
  | .mkdirP _ => false
  | .write _ => true

/-- The dict of files generated and used by RHINO, from
`get_coreg_filenames`. -/
structure CoregFilenames where
  basedir : String
  fif_file : String
  smri_file : String
  head_mri_t_file : String
  ctf_head_mri_t_file : String
  mrivoxel_mri_t_file : String
  smri_nasion_file : String
  smri_rpa_file : String
  smri_lpa_file : String
  polhemus_nasion_file : String
  polhemus_rpa_file : String
  polhemus_lpa_file : String
  polhemus_headshape_file : String
  forward_model_file : String
  std_brain : String
  deriving DecidableEq, Repr

/-- Result of `get_coreg_filenames`: the effects it performs and either the
filename dict or the `KeyError` raised while building it. -/
structure GcfResult where
  effects : List Effect
  result : Except CoregError CoregFilenames

/-- The base directory `subjects_dir/subject/rhino/coreg`. -/
def coreg_basedir (subjects_dir subject : String) : String :=
  subjects_dir ++ "/" ++ subject ++ "/rhino/coreg"

/-- The filename dict built by `get_coreg_filenames` once `FSLDIR` is known. -/
def coregFilenamesOf (fsldir subjects_dir subject : String) : CoregFilenames :=
  let basedir := coreg_basedir subjects_dir subject
  { basedir := basedir
    fif_file := basedir ++ "/data-raw.fif"
    smri_file := basedir ++ "/smri.nii.gz"
    head_mri_t_file := basedir ++ "/head_mri-trans.fif"
    ctf_head_mri_t_file := basedir ++ "/ctf_head_mri-trans.fif"
    mrivoxel_mri_t_file := basedir ++ "/mrivoxel_mri_t_file-trans.fif"
    smri_nasion_file := basedir ++ "/smri_nasion.txt"
    smri_rpa_file := basedir ++ "/smri_rpa.txt"
    smri_lpa_file := basedir ++ "/smri_lpa.txt"
    polhemus_nasion_file := basedir ++ "/polhemus_nasion.txt"
    polhemus_rpa_file := basedir ++ "/polhemus_rpa.txt"
    polhemus_lpa_file := basedir ++ "/polhemus_lpa.txt"
    polhemus_headshape_file := basedir ++ "/polhemus_headshape.txt"
    forward_model_file := basedir ++ "/forward-fwd.fif"
    std_brain := fsldir ++ "/data/standard/MNI152_T1_1mm_brain.nii.gz" }

/-- Embedding of `get_coreg_filenames`: it first runs
`os.makedirs(basedir, exist_ok=True)` and then builds the dict, whose
`std_brain` entry reads `os.environ["FSLDIR"]`; the directory creation
therefore happens even when the subsequent lookup raises `KeyError`. -/
def get_coreg_filenames (fsldir : Option String) (subjects_dir subject : String) :
    GcfResult :=
  { effects := [.mkdirP (coreg_basedir subjects_dir subject)]
    result :=
      match fsldir with
      | none => .error .keyErrorFSLDIR
      | some f => .ok (coregFilenamesOf f subjects_dir subject) }

/-! ### Inputs, outputs and the run record of `coreg` -/

/-- A volumetric mask as seen by the model: the point cloud of its nonzero
voxel indices (`rhino_utils.niimask2indexpointcloud`) and the
voxel-index-to-native affine from its header (`rhino_utils._get_sform`). -/
structure Mesh where
  cloud : List Pt
  sform : Mat4

/-- Everything a `coreg` run consumes.  File contents are `Option`-valued
when the file may be absent; the rigid solver core and the ICP core of
`rhino_utils` (outside the sources at hand) are oracle functions. -/
structure CoregInputs where
  subjects_dir : String
  subject : String
  fif_file : String
  use_headshape : Bool
  use_nose : Bool
  use_dev_ctf_t : Bool
  fsldir : Option String
  polhemus_headshape : Option (List Pt)
  polhemus_nasion : Option Pt
  polhemus_rpa : Option Pt
  polhemus_lpa : Option Pt
  bet_outskin_plus_nose_mesh : Mesh
  bet_outskin_mesh : Mesh
  mni_mri_t : Mat4
  rigid_transform_3D : List Pt → List Pt → Mat4
  rhino_icp_core : List Pt → List Pt → ℕ → Mat4 × ℚ × List ℚ
  bet_inskull_surf_file : String
  bet_outskull_surf_file : String
  bet_outskin_surf_file : String

/-- The scalp mask `coreg` works from, chosen by `use_nose`. -/
def outskinMesh (inp : CoregInputs) : Mesh :=
  if inp.use_nose then inp.bet_outskin_plus_nose_mesh else inp.bet_outskin_mesh

/-- One invocation of `rhino_utils.rhino_icp`, with its arguments. -/
structure IcpCall where
  fixed : List Pt
  moving : List Pt
  max_iterations : ℕ
  deriving DecidableEq, Repr

/-- Observables of a successful `coreg` run: the transforms it computed and
the values it persisted. -/
structure CoregOutput where
  xform_native2polhemus : Mat4
  xform_icp : Mat4
  xform_native2polhemus_refined : Mat4
  smri_nasion_native : Pt
  smri_rpa_native : Pt
  smri_lpa_native : Pt
  head_mri_t : Mat4
  mrivoxel_mri_t : Mat4
  smri_nasion_polhemus : Pt
  smri_rpa_polhemus : Pt
  smri_lpa_polhemus : Pt
  deriving DecidableEq

/-- The full record of one `coreg` run: its filesystem effects in order, the
ICP invocations it made, and its outcome. -/
structure CoregRun where
  effects : List Effect
  icpCalls : List IcpCall
  result : Except CoregError CoregOutput

/-- The Python slice `s[-n:]` on a string. -/
def pyLastChars (n : ℕ) (s : String) : String :=
  ⟨s.data.drop (s.data.length - n)⟩

/-- The fif filename test of `coreg`: `fif_file[-7:] == "raw.fif"` or
`fif_file[-10:] == "epochs.fif"`. -/
abbrev fifSuffixOk (s : String) : Prop :=
  pyLastChars 7 s = "raw.fif" ∨ pyLastChars 10 s = "epochs.fif"

/-- Modelled from the spec: `rhino_utils.rhino_icp` (not under the sources at
hand) fails with the insufficient-data error when either cloud has fewer
than 3 points, and otherwise runs the ICP core. -/
def rhino_icp (core : List Pt → List Pt → ℕ → Mat4 × ℚ × List ℚ)
    (fixed moving : List Pt) (max_iterations : ℕ) :
    Except CoregError (Mat4 × ℚ × List ℚ) :=
  if fixed.length < 3 ∨ moving.length < 3 then .error .insufficientCorrespondence
  else .ok (core fixed moving max_iterations)

/-- Modelled from the spec: the general-point-set rigid solver of
`rhino_utils` (not under the sources at hand) fails with the
insufficient-data error when either cloud has fewer than 3 points. -/
def solve_rigid_checked (core : List Pt → List Pt → Mat4)
    (src tgt : List Pt) : Except CoregError Mat4 :=
  if src.length < 3 ∨ tgt.length < 3 then .error .insufficientCorrespondence
  else .ok (core src tgt)

/-- The data `coreg` has loaded once all its required input files were read
and the fif filename was accepted. -/
structure Loaded where
  fns : CoregFilenames
  polhemus_headshape : List Pt
  polhemus_nasion : Pt
  polhemus_rpa : Pt
  polhemus_lpa : Pt

/-- The loading phase of `coreg` (source lines 165-241): resolve filenames
(raising `KeyError` if `FSLDIR` is unset), load the four polhemus files in
order (headshape, nasion, rpa, lpa), reject a fif filename that ends neither
in `raw.fif` nor `epochs.fif`. -/
def loadStage (inp : CoregInputs) : Except CoregError Loaded :=
  match (get_coreg_filenames inp.fsldir inp.subjects_dir inp.subject).result with
  | .error e => .error e
  | .ok fns =>
    match inp.polhemus_headshape with
    | none => .error (.missingInput fns.polhemus_headshape_file)
    | some polhemus_headshape =>
      match inp.polhemus_nasion with
      | none => .error (.missingInput fns.polhemus_nasion_file)
      | some polhemus_nasion =>
        match inp.polhemus_rpa with
        | none => .error (.missingInput fns.polhemus_rpa_file)
        | some polhemus_rpa =>
          match inp.polhemus_lpa with
          | none => .error (.missingInput fns.polhemus_lpa_file)
          | some polhemus_lpa =>
            if fifSuffixOk inp.fif_file then
              .ok { fns := fns
                    polhemus_headshape := polhemus_headshape
                    polhemus_nasion := polhemus_nasion
                    polhemus_rpa := polhemus_rpa
                    polhemus_lpa := polhemus_lpa }
            else .error .invalidFif

/-- The tail of `coreg` after the ICP branch (source lines 328-367): invert
the ICP transform, compose with the initial fit, map the structural
fiducials into the refined polhemus space, and build the persisted values
(both inversions go through `numpy.linalg.inv`). -/
def finishStage (xform_native2polhemus xform_nativeindex2native : Mat4)
    (smri_nasion_native smri_rpa_native smri_lpa_native : Pt)
    (xform_icp : Mat4) : Except CoregError CoregOutput :=
  match linalgInv xform_icp with
  | .error e => .error e
  | .ok icp_inv =>
    let xform_native2polhemus_refined := icp_inv * xform_native2polhemus
    match linalgInv xform_native2polhemus_refined with
    | .error e => .error e
    | .ok head_mri_t =>
      .ok { xform_native2polhemus := xform_native2polhemus
            xform_icp := xform_icp
            xform_native2polhemus_refined := xform_native2polhemus_refined
            smri_nasion_native := smri_nasion_native
            smri_rpa_native := smri_rpa_native
            smri_lpa_native := smri_lpa_native
            head_mri_t := head_mri_t
            mrivoxel_mri_t := xform_nativeindex2native
            smri_nasion_polhemus :=
              xformPoint xform_native2polhemus_refined smri_nasion_native
            smri_rpa_polhemus :=
              xformPoint xform_native2polhemus_refined smri_rpa_native
            smri_lpa_polhemus :=
              xformPoint xform_native2polhemus_refined smri_lpa_native }

/-- The computation phase of `coreg` (source lines 244-367): map the MNI
fiducials to native space, run the rigid fiducial fit, project the
structural headshape cloud into polhemus space, optionally refine by ICP
(recording the invocation), and finish.  Returns the ICP invocations made
and the outcome. -/
def computeStage (inp : CoregInputs) (d : Loaded) :
    List IcpCall × Except CoregError CoregOutput :=
  let smri_nasion_native := xformPoint inp.mni_mri_t mni_nasion_mni
  let smri_rpa_native := xformPoint inp.mni_mri_t mni_rpa_mni
  let smri_lpa_native := xformPoint inp.mni_mri_t mni_lpa_mni
  let polhemus_fid_polhemus := [d.polhemus_nasion, d.polhemus_rpa, d.polhemus_lpa]
  let smri_fid_native := [smri_nasion_native, smri_rpa_native, smri_lpa_native]
  let xform_native2polhemus :=
    inp.rigid_transform_3D polhemus_fid_polhemus smri_fid_native
  let xform_nativeindex2native := (outskinMesh inp).sform
  let smri_headshape_native :=
    xform_points xform_nativeindex2native (outskinMesh inp).cloud
  let smri_headshape_polhemus :=
    xform_points xform_native2polhemus smri_headshape_native
  if inp.use_headshape then
    let polhemus_headshape_4icp := d.polhemus_headshape ++ polhemus_fid_polhemus
    let call : IcpCall :=
      { fixed := smri_headshape_polhemus
        moving := polhemus_headshape_4icp
        max_iterations := 30 }
    match rhino_icp inp.rhino_icp_core smri_headshape_polhemus
        polhemus_headshape_4icp 30 with
    | .error e => ([call], .error e)
    | .ok (xform_icp, _, _) =>
      ([call],
       finishStage xform_native2polhemus xform_nativeindex2native
         smri_nasion_native smri_rpa_native smri_lpa_native xform_icp)
  else
    ([],
     finishStage xform_native2polhemus xform_nativeindex2native
       smri_nasion_native smri_rpa_native smri_lpa_native (1 : Mat4))

/-- Embedding of `coreg`: run the loading phase, then the computation phase,
and record the filesystem effects in program order: the directory creation
from `get_coreg_filenames`, the copy of the fif file (only once the fif
filename was accepted), and the persistence writes (transforms, fiducials,
regenerated surfaces) only on full success. -/
def coreg (inp : CoregInputs) : CoregRun :=
  let g := get_coreg_filenames inp.fsldir inp.subjects_dir inp.subject
  match loadStage inp with
  | .error e => { effects := g.effects, icpCalls := [], result := .error e }
  | .ok d =>
    let cr := computeStage inp d
    match cr.2 with
    | .error e =>
      { effects := g.effects ++ [.write d.fns.fif_file]
        icpCalls := cr.1
        result := .error e }
    | .ok o =>
      { effects := g.effects ++ [.write d.fns.fif_file]
          ++ [.write d.fns.head_mri_t_file, .write d.fns.mrivoxel_mri_t_file,
              .write d.fns.smri_nasion_file, .write d.fns.smri_rpa_file,
              .write d.fns.smri_lpa_file,
              .write inp.bet_inskull_surf_file,
              .write inp.bet_outskull_surf_file,
              .write inp.bet_outskin_surf_file]
        icpCalls := cr.1
        result := .ok o }

/-! ### The rigid alignment solver specification (component 4.2) -/

/-- Euclidean dot product on 3d rational points. -/
def dot3 (u v : Pt) : ℚ := u 0 * v 0 + u 1 * v 1 + u 2 * v 2

/-- Cross product on 3d rational points. -/
def cross3 (u v : Pt) : Pt :=
  ![u 1 * v 2 - u 2 * v 1, u 2 * v 0 - u 0 * v 2, u 0 * v 1 - u 1 * v 0]

/-- The 3x3 matrix with the three given columns. -/
def colMat (a b c : Pt) : Mat3 :=
  Matrix.of ![![a 0, b 0, c 0], ![a 1, b 1, c 1], ![a 2, b 2, c 2]]

/-- A rigid candidate: a 3x3 block and a translation. -/
structure Rigid where
  R : Mat3
  t : Pt
  deriving DecidableEq

/-- Apply a rigid candidate to a point. -/
def Rigid.apply (S : Rigid) (p : Pt) : Pt := Matrix.mulVec S.R p + S.t

/-- A proper rotation: orthogonal with determinant +1 (the solver forces the
determinant to +1, correcting reflections). -/
def IsRotation (R : Mat3) : Prop := R.transpose * R = 1 ∧ R.det = 1

/-- A rigid transform proper: rotation plus translation, no scale or shear. -/
def Rigid.IsProper (S : Rigid) : Prop := IsRotation S.R

/-- Squared norm of a 3d rational point. -/
def sqNorm (p : Pt) : ℚ := dot3 p p

/-- Sum of squared distances between the transformed source points and the
target points. -/
def residual (S : Rigid) (src tgt : Fin 3 → Pt) : ℚ :=
  ∑ i : Fin 3, sqNorm (S.apply (src i) - tgt i)

/-- Modelled from the spec: `solve_rigid` (rhino_utils, not under the sources
at hand) computes the rotation and translation minimizing the sum of squared
distances between transformed source points and target points, with the
rotation corrected to determinant +1.  This predicate characterises any
value the solver may return. -/
def SolveRigidSpec (src tgt : Fin 3 → Pt) (S : Rigid) : Prop :=
  S.IsProper ∧ ∀ S2 : Rigid, S2.IsProper → residual S src tgt ≤ residual S2 src tgt

/-- Three points are non-collinear when the edge vectors from the first
point are not parallel. -/
def NonCollinear (P : Fin 3 → Pt) : Prop :=
  cross3 (P 1 - P 0) (P 2 - P 0) ≠ 0

/-! ### Named intermediate values of a `coreg` run -/

/-- The three sMRI-derived fiducials in native space: the canonical MNI
fiducials mapped through the MNI-to-native transform, one application per
fiducial. -/
def smriFidNative (inp : CoregInputs) : List Pt :=
  [xformPoint inp.mni_mri_t mni_nasion_mni,
   xformPoint inp.mni_mri_t mni_rpa_mni,
   xformPoint inp.mni_mri_t mni_lpa_mni]

/-- The initial fiducial-based native-to-polhemus fit returned by the rigid
solver, given the three loaded polhemus fiducials. -/
def initialFit (inp : CoregInputs) (nas rpa lpa : Pt) : Mat4 :=
  inp.rigid_transform_3D [nas, rpa, lpa] (smriFidNative inp)

/-- The sMRI-derived headshape cloud mapped into polhemus space by the
initial fit (voxel indices to native via the mask sform, then native to
polhemus). -/
def smriHeadshapePolhemus (inp : CoregInputs) (nas rpa lpa : Pt) : List Pt :=
  xform_points (initialFit inp nas rpa lpa)
    (xform_points (outskinMesh inp).sform (outskinMesh inp).cloud)

/-! ### Concrete inputs used by the witnesses -/

/-- An all-trivial input on which `coreg` succeeds: every file present, the
fif filename valid, headshape usage off, and identity oracles. -/
def exBase : CoregInputs :=
  { subjects_dir := "sd"
    subject := "sub"
    fif_file := "data-raw.fif"
    use_headshape := false
    use_nose := false
    use_dev_ctf_t := true
    fsldir := some ("/fsl")
    polhemus_headshape := some []
    polhemus_nasion := some (![0, 0, 0])
    polhemus_rpa := some (![0, 0, 0])
    polhemus_lpa := some (![0, 0, 0])
    bet_outskin_plus_nose_mesh := { cloud := [], sform := 1 }
    bet_outskin_mesh := { cloud := [], sform := 1 }
    mni_mri_t := 1
    rigid_transform_3D := fun _ _ => 1
    rhino_icp_core := fun _ _ _ => (1, 0, [])
    bet_inskull_surf_file := "inskull.surf"
    bet_outskull_surf_file := "outskull.surf"
    bet_outskin_surf_file := "outskin.surf" }

/-- The trivial input with headshape usage on. -/
def exHS : CoregInputs := { exBase with use_headshape := true }

/-- The trivial input with the nasion file absent. -/
def exNoNasion : CoregInputs := { exBase with polhemus_nasion := none }

/-- The trivial input with an invalid fif filename. -/
def exBadFif : CoregInputs := { exBase with fif_file := "data.txt" }

/-- The trivial input with `FSLDIR` unset. -/
def exNoFsl : CoregInputs := { exBase with fsldir := none }

/-- The output of `coreg` on `exBase`, written out. -/
def exBaseOut : CoregOutput :=
  { xform_native2polhemus := 1
    xform_icp := 1
    xform_native2polhemus_refined := 1
    smri_nasion_native := ![1, 85, -41]
    smri_rpa_native := ![83, -20, -65]
    smri_lpa_native := ![-83, -20, -65]
    head_mri_t := 1
    mrivoxel_mri_t := 1
    smri_nasion_polhemus := ![1, 85, -41]
    smri_rpa_polhemus := ![83, -20, -65]
    smri_lpa_polhemus := ![-83, -20, -65] }

/-- Concrete non-collinear points for the rigid-solver witness. -/
def exP : Fin 3 → Pt := ![![0, 0, 0], ![1, 0, 0], ![0, 1, 0]]

/-- A concrete proper rigid transform (90-degree rotation about z plus a
translation) for the rigid-solver witness. -/
def exT : Rigid := { R := !![0, -1, 0; 1, 0, 0; 0, 0, 1], t := ![5, 7, 9] }

set_option maxHeartbeats 1600000

/-! ### Algebraic facts about the explicit 4x4 inverse -/

theorem adj4_mul (A : Mat4) : adj4 A * A = det4 A • (1 : Mat4) := by
  ext i j
  fin_cases i <;> fin_cases j <;>
    simp +decide [adj4, det4, minor3, det3s, Matrix.mul_apply,
      Fin.sum_univ_four, Matrix.smul_apply, Matrix.one_apply] <;> ring

theorem inv4_mul (A : Mat4) (h : det4 A ≠ 0) : inv4 A * A = 1 := by
  calc inv4 A * A = (det4 A)⁻¹ • (adj4 A * A) := by
        rw [inv4, Matrix.smul_mul]
    _ = (det4 A)⁻¹ • (det4 A • (1 : Mat4)) := by rw [adj4_mul]
    _ = 1 := by rw [smul_smul, inv_mul_cancel₀ h, one_smul]

theorem det4_one : det4 (1 : Mat4) = 1 := by
  simp +decide [det4, minor3, det3s, Matrix.one_apply]

theorem inv4_one : inv4 (1 : Mat4) = 1 := by
  ext i j
  fin_cases i <;> fin_cases j <;>
    simp +decide [inv4, adj4, det4, minor3, det3s, Matrix.one_apply,
      Matrix.smul_apply]

theorem linalgInv_one : linalgInv (1 : Mat4) = .ok 1 := by
  simp [linalgInv, det4_one, inv4_one]

theorem linalgInv_of_ne (A : Mat4) (h : det4 A ≠ 0) :
    linalgInv A = .ok (inv4 A) := by
  simp [linalgInv, h]

theorem xformPoint_one (p : Pt) : xformPoint 1 p = p := by
  funext i
  fin_cases i <;> simp [xformPoint, toHomog, Matrix.one_mulVec]

/-! ### Reduction of the loading phase -/

theorem loadStage_eq (inp : CoregInputs) (f : String) (hs : List Pt)
    (nas rpa lpa : Pt)
    (hf : inp.fsldir = some f)
    (hhs : inp.polhemus_headshape = some hs)
    (hn : inp.polhemus_nasion = some nas)
    (hr : inp.polhemus_rpa = some rpa)
    (hl : inp.polhemus_lpa = some lpa)
    (hfif : fifSuffixOk inp.fif_file) :
    loadStage inp = .ok
      { fns := coregFilenamesOf f inp.subjects_dir inp.subject
        polhemus_headshape := hs
        polhemus_nasion := nas
        polhemus_rpa := rpa
        polhemus_lpa := lpa } := by
  simp [loadStage, get_coreg_filenames, hf, hhs, hn, hr, hl, hfif]

theorem linalgInv_ok (A B : Mat4) :
    linalgInv A = .ok B ↔ det4 A ≠ 0 ∧ B = inv4 A := by
  unfold linalgInv
  split <;> simp_all
  exact eq_comm

theorem finishStage_ok (x2p sform : Mat4) (nn rn ln : Pt) (xicp : Mat4)
    (o : CoregOutput) (h : finishStage x2p sform nn rn ln xicp = .ok o) :
    det4 xicp ≠ 0
    ∧ det4 (inv4 xicp * x2p) ≠ 0
    ∧ o = { xform_native2polhemus := x2p
            xform_icp := xicp
            xform_native2polhemus_refined := inv4 xicp * x2p
            smri_nasion_native := nn
            smri_rpa_native := rn
            smri_lpa_native := ln
            head_mri_t := inv4 (inv4 xicp * x2p)
            mrivoxel_mri_t := sform
            smri_nasion_polhemus := xformPoint (inv4 xicp * x2p) nn
            smri_rpa_polhemus := xformPoint (inv4 xicp * x2p) rn
            smri_lpa_polhemus := xformPoint (inv4 xicp * x2p) ln } := by
  simp only [finishStage] at h
  split at h
  · simp at h
  · rename_i icp_inv heq1
    rw [linalgInv_ok] at heq1
    obtain ⟨hd1, hinv1⟩ := heq1
    subst hinv1
    split at h
    · simp at h
    · rename_i head heq2
      rw [linalgInv_ok] at heq2
      obtain ⟨hd2, hinv2⟩ := heq2
      subst hinv2
      simp only [Except.ok.injEq] at h
      subst h
      exact ⟨hd1, hd2, rfl⟩

theorem computeStage_ok (inp : CoregInputs) (d : Loaded) (o : CoregOutput)
    (h : (computeStage inp d).2 = .ok o) :
    ∃ xicp : Mat4,
      finishStage
        (inp.rigid_transform_3D
          [d.polhemus_nasion, d.polhemus_rpa, d.polhemus_lpa]
          (smriFidNative inp))
        (outskinMesh inp).sform
        (xformPoint inp.mni_mri_t mni_nasion_mni)
        (xformPoint inp.mni_mri_t mni_rpa_mni)
        (xformPoint inp.mni_mri_t mni_lpa_mni)
        xicp = .ok o := by
  simp only [computeStage, smriFidNative] at h ⊢
  split at h
  · split at h <;> first | exact ⟨_, h⟩ | simp at h
  · exact ⟨1, h⟩

theorem coreg_ok_elim (inp : CoregInputs) (o : CoregOutput)
    (h : (coreg inp).result = .ok o) :
    ∃ d, loadStage inp = .ok d ∧ (computeStage inp d).2 = .ok o := by
  simp only [coreg] at h
  split at h
  · simp at h
  · rename_i d hd
    split at h
    · simp at h
    · rename_i o2 ho2
      simp only [Except.ok.injEq] at h
      subst h
      exact ⟨d, hd, ho2⟩

theorem run_exBase : (coreg exBase).result = .ok exBaseOut := by
  have hload := loadStage_eq exBase ("/fsl") [] (![0, 0, 0]) (![0, 0, 0])
    (![0, 0, 0]) rfl rfl rfl rfl rfl (by decide)
  simp only [coreg, hload]
  simp [computeStage, exBase, finishStage, linalgInv_one,
    inv4_one, one_mul, mul_one, xformPoint_one, outskinMesh, exBaseOut,
    mni_nasion_mni, mni_rpa_mni, mni_lpa_mni]

theorem coreg_icpCalls_eq (inp : CoregInputs) (d : Loaded)
    (h : loadStage inp = .ok d) :
    (coreg inp).icpCalls = (computeStage inp d).1 := by
  simp only [coreg, h]
  split <;> rfl

theorem computeStage_calls_hs (inp : CoregInputs) (d : Loaded)
    (h : inp.use_headshape = true) :
    (computeStage inp d).1 =
      [{ fixed := xform_points
            (inp.rigid_transform_3D
              [d.polhemus_nasion, d.polhemus_rpa, d.polhemus_lpa]
              (smriFidNative inp))
            (xform_points (outskinMesh inp).sform (outskinMesh inp).cloud)
         moving := d.polhemus_headshape
            ++ [d.polhemus_nasion, d.polhemus_rpa, d.polhemus_lpa]
         max_iterations := 30 }] := by
  simp only [computeStage, h, if_true, smriFidNative, mni_nasion_mni,
    mni_rpa_mni, mni_lpa_mni]
  split <;> rfl

theorem computeStage_calls_no_hs (inp : CoregInputs) (d : Loaded)
    (h : inp.use_headshape = false) :
    (computeStage inp d).1 = [] := by
  simp [computeStage, h]

/-- Claim C2: on every successful run, the persisted head-to-mri transform
is exactly the matrix inverse of the refined native-to-polhemus transform,
so their composition is the 4x4 identity. -/
theorem coreg_head_mri_t_is_inverse (inp : CoregInputs) (o : CoregOutput)
    (h : (coreg inp).result = .ok o) :
    o.head_mri_t = inv4 o.xform_native2polhemus_refined
    ∧ o.head_mri_t * o.xform_native2polhemus_refined = 1 := by
  obtain ⟨d, _, hc⟩ := coreg_ok_elim inp o h
  obtain ⟨xicp, hf⟩ := computeStage_ok inp d o hc
  obtain ⟨h1, h2, ho⟩ := finishStage_ok _ _ _ _ _ _ _ hf
  subst ho
  exact ⟨rfl, inv4_mul _ h2⟩

theorem coreg_head_mri_t_is_inverse_witness :
    exBaseOut.head_mri_t = inv4 exBaseOut.xform_native2polhemus_refined
    ∧ exBaseOut.head_mri_t * exBaseOut.xform_native2polhemus_refined = 1 :=
  coreg_head_mri_t_is_inverse exBase exBaseOut run_exBase

/-- Claim C7: on every run reaching the outputs, the sMRI-derived fiducials
in native space are the three fixed canonical MNI coordinates mapped through
the MNI-to-native transform, one application per fiducial. -/
theorem coreg_mni_fiducials (inp : CoregInputs) (o : CoregOutput)
    (h : (coreg inp).result = .ok o) :
    o.smri_nasion_native = xformPoint inp.mni_mri_t (![1, 85, -41])
    ∧ o.smri_rpa_native = xformPoint inp.mni_mri_t (![83, -20, -65])
    ∧ o.smri_lpa_native = xformPoint inp.mni_mri_t (![-83, -20, -65]) := by
  obtain ⟨d, _, hc⟩ := coreg_ok_elim inp o h
  obtain ⟨xicp, hf⟩ := computeStage_ok inp d o hc
  obtain ⟨h1, h2, ho⟩ := finishStage_ok _ _ _ _ _ _ _ hf
  subst ho
  exact ⟨rfl, rfl, rfl⟩

theorem coreg_mni_fiducials_witness :
    exBaseOut.smri_nasion_native = xformPoint exBase.mni_mri_t (![1, 85, -41])
    ∧ exBaseOut.smri_rpa_native = xformPoint exBase.mni_mri_t (![83, -20, -65])
    ∧ exBaseOut.smri_lpa_native
        = xformPoint exBase.mni_mri_t (![-83, -20, -65]) :=
  coreg_mni_fiducials exBase exBaseOut run_exBase

/-- Claim C8: on every successful run, the persisted voxel-to-native
transform is the sform taken from the scalp mask used, untouched by the ICP
refinement and independent of the `use_headshape` flag. -/
theorem coreg_mrivoxel_from_header (inp : CoregInputs) (o : CoregOutput)
    (h : (coreg inp).result = .ok o) :
    o.mrivoxel_mri_t = (outskinMesh inp).sform
    ∧ ∀ b : Bool,
        o.mrivoxel_mri_t = (outskinMesh { inp with use_headshape := b }).sform := by
  obtain ⟨d, _, hc⟩ := coreg_ok_elim inp o h
  obtain ⟨xicp, hf⟩ := computeStage_ok inp d o hc
  obtain ⟨h1, h2, ho⟩ := finishStage_ok _ _ _ _ _ _ _ hf
  subst ho
  exact ⟨rfl, fun b => rfl⟩

theorem coreg_mrivoxel_from_header_witness :
    exBaseOut.mrivoxel_mri_t = (outskinMesh exBase).sform
    ∧ ∀ b : Bool,
        exBaseOut.mrivoxel_mri_t
          = (outskinMesh { exBase with use_headshape := b }).sform :=
  coreg_mrivoxel_from_header exBase exBaseOut run_exBase

/-- Claim C10: `get_coreg_filenames` creates the coreg directory as a side
effect, builds `std_brain` from `FSLDIR`, raises `KeyError` when `FSLDIR`
is unset, and this happens at the start of every `coreg` run before any
computation (no write, no ICP call). -/
theorem get_coreg_filenames_behavior (subjects_dir subject : String)
    (fsldir : Option String) :
    (get_coreg_filenames fsldir subjects_dir subject).effects
        = [Effect.mkdirP (coreg_basedir subjects_dir subject)]
    ∧ (fsldir = none →
        (get_coreg_filenames fsldir subjects_dir subject).result
          = .error .keyErrorFSLDIR)
    ∧ (∀ f, fsldir = some f →
        (get_coreg_filenames fsldir subjects_dir subject).result
            = .ok (coregFilenamesOf f subjects_dir subject)
        ∧ (coregFilenamesOf f subjects_dir subject).std_brain
            = f ++ "/data/standard/MNI152_T1_1mm_brain.nii.gz")
    ∧ (∀ inp : CoregInputs, inp.fsldir = none →
        (coreg inp).result = .error .keyErrorFSLDIR
        ∧ (coreg inp).icpCalls = []
        ∧ (coreg inp).effects
            = [Effect.mkdirP (coreg_basedir inp.subjects_dir inp.subject)]) := by
  refine ⟨rfl, ?_, ?_, ?_⟩
  · intro h
    simp [get_coreg_filenames, h]
  · intro f h
    exact ⟨by simp [get_coreg_filenames, h], rfl⟩
  · intro inp h
    refine ⟨?_, ?_, ?_⟩ <;>
      simp [coreg, loadStage, get_coreg_filenames, h]

theorem get_coreg_filenames_behavior_witness :
    (get_coreg_filenames none ("sd") ("sub")).effects
        = [Effect.mkdirP (coreg_basedir ("sd") ("sub"))]
    ∧ (none = (none : Option String) →
        (get_coreg_filenames none ("sd") ("sub")).result
          = .error .keyErrorFSLDIR)
    ∧ (∀ f, (none : Option String) = some f →
        (get_coreg_filenames none ("sd") ("sub")).result
            = .ok (coregFilenamesOf f ("sd") ("sub"))
        ∧ (coregFilenamesOf f ("sd") ("sub")).std_brain
            = f ++ "/data/standard/MNI152_T1_1mm_brain.nii.gz")
    ∧ (∀ inp : CoregInputs, inp.fsldir = none →
        (coreg inp).result = .error .keyErrorFSLDIR
        ∧ (coreg inp).icpCalls = []
        ∧ (coreg inp).effects
            = [Effect.mkdirP (coreg_basedir inp.subjects_dir inp.subject)]) :=
  get_coreg_filenames_behavior ("sd") ("sub") none

/-- Claim C6: when any of the four polhemus input files is absent, `coreg`
fails with a missing-input error naming a path that is indeed one of the
absent files, and no output file has been written. -/
theorem coreg_missing_polhemus_aborts (inp : CoregInputs) (f : String)
    (hf : inp.fsldir = some f)
    (hmiss : inp.polhemus_headshape = none ∨ inp.polhemus_nasion = none
      ∨ inp.polhemus_rpa = none ∨ inp.polhemus_lpa = none) :
    (∃ p, (coreg inp).result = .error (.missingInput p)
      ∧ ((p = (coregFilenamesOf f inp.subjects_dir inp.subject).polhemus_headshape_file
            ∧ inp.polhemus_headshape = none)
        ∨ (p = (coregFilenamesOf f inp.subjects_dir inp.subject).polhemus_nasion_file
            ∧ inp.polhemus_nasion = none)
        ∨ (p = (coregFilenamesOf f inp.subjects_dir inp.subject).polhemus_rpa_file
            ∧ inp.polhemus_rpa = none)
        ∨ (p = (coregFilenamesOf f inp.subjects_dir inp.subject).polhemus_lpa_file
            ∧ inp.polhemus_lpa = none)))
    ∧ (coreg inp).effects.filter Effect.isWrite = [] := by
  cases hhs : inp.polhemus_headshape with
  | none =>
    refine ⟨⟨_, ?_, Or.inl ⟨rfl, rfl⟩⟩, ?_⟩ <;>
      simp [coreg, loadStage, get_coreg_filenames, hf, hhs, Effect.isWrite]
  | some hs =>
    cases hn : inp.polhemus_nasion with
    | none =>
      refine ⟨⟨_, ?_, Or.inr (Or.inl ⟨rfl, rfl⟩)⟩, ?_⟩ <;>
        simp [coreg, loadStage, get_coreg_filenames, hf, hhs, hn, Effect.isWrite]
    | some nas =>
      cases hr : inp.polhemus_rpa with
      | none =>
        refine ⟨⟨_, ?_, Or.inr (Or.inr (Or.inl ⟨rfl, rfl⟩))⟩, ?_⟩ <;>
          simp [coreg, loadStage, get_coreg_filenames, hf, hhs, hn, hr,
            Effect.isWrite]
      | some rpa =>
        cases hl : inp.polhemus_lpa with
        | none =>
          refine ⟨⟨_, ?_, Or.inr (Or.inr (Or.inr ⟨rfl, rfl⟩))⟩, ?_⟩ <;>
            simp [coreg, loadStage, get_coreg_filenames, hf, hhs, hn, hr, hl,
              Effect.isWrite]
        | some lpa =>
          rcases hmiss with h | h | h | h <;> simp_all

theorem coreg_missing_polhemus_aborts_witness :
    (∃ p, (coreg exNoNasion).result = .error (.missingInput p)
      ∧ ((p = (coregFilenamesOf ("/fsl") exNoNasion.subjects_dir exNoNasion.subject).polhemus_headshape_file
            ∧ exNoNasion.polhemus_headshape = none)
        ∨ (p = (coregFilenamesOf ("/fsl") exNoNasion.subjects_dir exNoNasion.subject).polhemus_nasion_file
            ∧ exNoNasion.polhemus_nasion = none)
        ∨ (p = (coregFilenamesOf ("/fsl") exNoNasion.subjects_dir exNoNasion.subject).polhemus_rpa_file
            ∧ exNoNasion.polhemus_rpa = none)
        ∨ (p = (coregFilenamesOf ("/fsl") exNoNasion.subjects_dir exNoNasion.subject).polhemus_lpa_file
            ∧ exNoNasion.polhemus_lpa = none)))
    ∧ (coreg exNoNasion).effects.filter Effect.isWrite = [] :=
  coreg_missing_polhemus_aborts exNoNasion ("/fsl") rfl
    (Or.inr (Or.inl rfl))

/-- Claim C9: a fif filename that ends neither in `raw.fif` nor in
`epochs.fif` makes `coreg` raise the invalid-fif `ValueError` once the
polhemus inputs have loaded, with no file copied or written. -/
theorem coreg_invalid_fif (inp : CoregInputs) (f : String) (hs : List Pt)
    (nas rpa lpa : Pt)
    (hf : inp.fsldir = some f)
    (hhs : inp.polhemus_headshape = some hs)
    (hn : inp.polhemus_nasion = some nas)
    (hr : inp.polhemus_rpa = some rpa)
    (hl : inp.polhemus_lpa = some lpa)
    (hfif : ¬ fifSuffixOk inp.fif_file) :
    (coreg inp).result = .error .invalidFif
    ∧ (coreg inp).effects.filter Effect.isWrite = [] := by
  refine ⟨?_, ?_⟩ <;>
    simp [coreg, loadStage, get_coreg_filenames, hf, hhs, hn, hr, hl, hfif,
      Effect.isWrite]

/-- Claim C1: with `use_headshape = False` and all required inputs present,
the ICP routine is never invoked, the ICP transform is the 4x4 identity,
and the refined native-to-polhemus transform is exactly the initial
fiducial-based fit. -/
theorem coreg_no_headshape_noop (inp : CoregInputs) (f : String) (hs : List Pt)
    (nas rpa lpa : Pt)
    (hf : inp.fsldir = some f)
    (hhs : inp.polhemus_headshape = some hs)
    (hn : inp.polhemus_nasion = some nas)
    (hr : inp.polhemus_rpa = some rpa)
    (hl : inp.polhemus_lpa = some lpa)
    (hfif : fifSuffixOk inp.fif_file)
    (huse : inp.use_headshape = false)
    (hdet : det4 (initialFit inp nas rpa lpa) ≠ 0) :
    (coreg inp).icpCalls = []
    ∧ ∃ o, (coreg inp).result = .ok o
        ∧ o.xform_icp = 1
        ∧ o.xform_native2polhemus = initialFit inp nas rpa lpa
        ∧ o.xform_native2polhemus_refined = o.xform_native2polhemus := by
  have hload := loadStage_eq inp f hs nas rpa lpa hf hhs hn hr hl hfif
  simp only [initialFit, smriFidNative] at hdet
  constructor
  · rw [coreg_icpCalls_eq inp _ hload, computeStage_calls_no_hs inp _ huse]
  · simp only [coreg, hload, computeStage, huse, Bool.false_eq_true, if_false,
      finishStage, linalgInv_one, one_mul]
    rw [linalgInv_of_ne _ hdet]
    exact ⟨_, rfl, rfl, rfl, rfl⟩

theorem coreg_no_headshape_noop_witness :
    (coreg exBase).icpCalls = []
    ∧ ∃ o, (coreg exBase).result = .ok o
        ∧ o.xform_icp = 1
        ∧ o.xform_native2polhemus
            = initialFit exBase (![0, 0, 0]) (![0, 0, 0]) (![0, 0, 0])
        ∧ o.xform_native2polhemus_refined = o.xform_native2polhemus :=
  coreg_no_headshape_noop exBase ("/fsl") [] (![0, 0, 0]) (![0, 0, 0])
    (![0, 0, 0]) rfl rfl rfl rfl rfl (by decide) rfl
    (by norm_num
          [show initialFit exBase (![0, 0, 0]) (![0, 0, 0]) (![0, 0, 0]) = 1
             from rfl,
           det4_one])

/-- Claim C3: with `use_headshape = True` and all required inputs present,
the ICP routine is invoked exactly once, with the sMRI-derived headshape
cloud mapped into polhemus space as the fixed cloud, the digitized headshape
points concatenated with the three digitized fiducials as the moving cloud,
and 30 iterations. -/
theorem coreg_single_icp_invocation (inp : CoregInputs) (f : String)
    (hs : List Pt) (nas rpa lpa : Pt)
    (hf : inp.fsldir = some f)
    (hhs : inp.polhemus_headshape = some hs)
    (hn : inp.polhemus_nasion = some nas)
    (hr : inp.polhemus_rpa = some rpa)
    (hl : inp.polhemus_lpa = some lpa)
    (hfif : fifSuffixOk inp.fif_file)
    (huse : inp.use_headshape = true) :
    (coreg inp).icpCalls =
      [{ fixed := smriHeadshapePolhemus inp nas rpa lpa
         moving := hs ++ [nas, rpa, lpa]
         max_iterations := 30 }] := by
  have hload := loadStage_eq inp f hs nas rpa lpa hf hhs hn hr hl hfif
  rw [coreg_icpCalls_eq inp _ hload, computeStage_calls_hs inp _ huse]
  rfl

theorem coreg_single_icp_invocation_witness :
    (coreg exHS).icpCalls =
      [{ fixed := smriHeadshapePolhemus exHS (![0, 0, 0]) (![0, 0, 0])
            (![0, 0, 0])
         moving := [] ++ [![0, 0, 0], ![0, 0, 0], ![0, 0, 0]]
         max_iterations := 30 }] :=
  coreg_single_icp_invocation exHS ("/fsl") [] (![0, 0, 0]) (![0, 0, 0])
    (![0, 0, 0]) rfl rfl rfl rfl rfl (by decide) rfl

/-- Claim C5: fewer than 3 points in either cloud makes both the rigid
solver and ICP fail with the insufficient-correspondence error, and inside
`coreg` such a failure of the ICP invocation aborts the whole run with that
error. -/
theorem alignment_insufficient_points
    (icore : List Pt → List Pt → ℕ → Mat4 × ℚ × List ℚ)
    (score : List Pt → List Pt → Mat4)
    (fixed moving : List Pt) (n : ℕ)
    (h : fixed.length < 3 ∨ moving.length < 3) :
    rhino_icp icore fixed moving n = .error .insufficientCorrespondence
    ∧ solve_rigid_checked score fixed moving
        = .error .insufficientCorrespondence
    ∧ ∀ (inp : CoregInputs) (f : String) (hs : List Pt) (nas rpa lpa : Pt),
        inp.fsldir = some f → inp.polhemus_headshape = some hs →
        inp.polhemus_nasion = some nas → inp.polhemus_rpa = some rpa →
        inp.polhemus_lpa = some lpa → fifSuffixOk inp.fif_file →
        inp.use_headshape = true → (outskinMesh inp).cloud.length < 3 →
        (coreg inp).result = .error .insufficientCorrespondence := by
  refine ⟨by simp [rhino_icp, h], by simp [solve_rigid_checked, h], ?_⟩
  intro inp f hs nas rpa lpa hf hhs hn hr hl hfif huse hlen
  have hload := loadStage_eq inp f hs nas rpa lpa hf hhs hn hr hl hfif
  simp [coreg, hload, computeStage, huse, rhino_icp, xform_points,
    List.length_map, hlen]

theorem alignment_insufficient_points_witness :
    rhino_icp (fun _ _ _ => ((1 : Mat4), (0 : ℚ), ([] : List ℚ))) [] [] 30
        = .error .insufficientCorrespondence
    ∧ solve_rigid_checked (fun _ _ => (1 : Mat4)) [] []
        = .error .insufficientCorrespondence
    ∧ ∀ (inp : CoregInputs) (f : String) (hs : List Pt) (nas rpa lpa : Pt),
        inp.fsldir = some f → inp.polhemus_headshape = some hs →
        inp.polhemus_nasion = some nas → inp.polhemus_rpa = some rpa →
        inp.polhemus_lpa = some lpa → fifSuffixOk inp.fif_file →
        inp.use_headshape = true → (outskinMesh inp).cloud.length < 3 →
        (coreg inp).result = .error .insufficientCorrespondence :=
  alignment_insufficient_points _ _ [] [] 30 (Or.inl (by decide))

theorem coreg_invalid_fif_witness :
    (coreg exBadFif).result = .error .invalidFif
    ∧ (coreg exBadFif).effects.filter Effect.isWrite = [] :=
  coreg_invalid_fif exBadFif ("/fsl") [] (![0, 0, 0]) (![0, 0, 0]) (![0, 0, 0])
    rfl rfl rfl rfl rfl (by decide)

/-! ### The rigid alignment solver recovers rigid motions (component 4.2) -/

theorem dot3_self_nonneg (p : Pt) : 0 ≤ dot3 p p := by
  unfold dot3
  nlinarith [mul_self_nonneg (p 0), mul_self_nonneg (p 1), mul_self_nonneg (p 2)]

theorem dot3_self_eq_zero {p : Pt} (h : dot3 p p = 0) : p = 0 := by
  have h0 : p 0 * p 0 = 0 := by
    unfold dot3 at h
    nlinarith [mul_self_nonneg (p 1), mul_self_nonneg (p 2)]
  have h1 : p 1 * p 1 = 0 := by
    unfold dot3 at h
    nlinarith [mul_self_nonneg (p 0), mul_self_nonneg (p 2)]
  have h2 : p 2 * p 2 = 0 := by
    unfold dot3 at h
    nlinarith [mul_self_nonneg (p 0), mul_self_nonneg (p 1)]
  funext i
  fin_cases i <;>
    simp [mul_self_eq_zero.mp h0, mul_self_eq_zero.mp h1, mul_self_eq_zero.mp h2]

theorem cross3_dot_left (a b : Pt) : dot3 (cross3 a b) a = 0 := by
  simp [cross3, dot3]
  ring

theorem cross3_dot_right (a b : Pt) : dot3 (cross3 a b) b = 0 := by
  simp [cross3, dot3]
  ring

theorem lagrange (u a b : Pt) :
    cross3 u (cross3 a b) = dot3 u b • a - dot3 u a • b := by
  funext i
  fin_cases i <;>
    simp [cross3, dot3, Pi.smul_apply, Pi.sub_apply, smul_eq_mul] <;> ring

theorem cross3_anticomm3 (a b : Pt) : cross3 a b = -(cross3 b a) := by
  funext i
  fin_cases i <;> simp [cross3] <;> ring

theorem cross3_zero_right (a : Pt) : cross3 a 0 = 0 := by
  funext i
  fin_cases i <;> simp [cross3]

theorem mulVec_dot3 (Q : Mat3) (hQ : Q.transpose * Q = 1) (x y : Pt) :
    dot3 (Q.mulVec x) (Q.mulVec y) = dot3 x y := by
  have h00 := congrFun (congrFun hQ 0) 0
  have h01 := congrFun (congrFun hQ 0) 1
  have h02 := congrFun (congrFun hQ 0) 2
  have h10 := congrFun (congrFun hQ 1) 0
  have h11 := congrFun (congrFun hQ 1) 1
  have h12 := congrFun (congrFun hQ 1) 2
  have h20 := congrFun (congrFun hQ 2) 0
  have h21 := congrFun (congrFun hQ 2) 1
  have h22 := congrFun (congrFun hQ 2) 2
  simp +decide [Matrix.mul_apply, Matrix.transpose_apply, Fin.sum_univ_three,
    Matrix.one_apply] at h00 h01 h02 h10 h11 h12 h20 h21 h22
  simp [dot3, Matrix.mulVec, Matrix.dotProduct, Fin.sum_univ_three]
  linear_combination x 0 * y 0 * h00 + x 0 * y 1 * h01 + x 0 * y 2 * h02
    + x 1 * y 0 * h10 + x 1 * y 1 * h11 + x 1 * y 2 * h12
    + x 2 * y 0 * h20 + x 2 * y 1 * h21 + x 2 * y 2 * h22

theorem colMat_det (a b c : Pt) : (colMat a b c).det = dot3 (cross3 a b) c := by
  simp [colMat, Matrix.det_fin_three, cross3, dot3]
  ring

theorem mul_colMat (Q : Mat3) (a b c : Pt) :
    Q * colMat a b c = colMat (Q.mulVec a) (Q.mulVec b) (Q.mulVec c) := by
  ext i j
  fin_cases i <;> fin_cases j <;>
    simp [colMat, Matrix.mul_apply, Matrix.mulVec, Matrix.dotProduct,
      Fin.sum_univ_three]

theorem rot_fix_plane (Q : Mat3) (hQ : Q.transpose * Q = 1) (hdet : Q.det = 1)
    (v1 v2 : Pt) (h1 : Q.mulVec v1 = v1) (h2 : Q.mulVec v2 = v2)
    (hn : cross3 v1 v2 ≠ 0) : Q = 1 := by
  set n := cross3 v1 v2 with hn_def
  set w := Q.mulVec n with hw_def
  have hnn : dot3 n n ≠ 0 := fun h => hn (dot3_self_eq_zero h)
  have hw1 : dot3 w v1 = 0 := by
    have hp := mulVec_dot3 Q hQ n v1
    rw [h1, ← hw_def] at hp
    rw [hp, hn_def]
    exact cross3_dot_left v1 v2
  have hw2 : dot3 w v2 = 0 := by
    have hp := mulVec_dot3 Q hQ n v2
    rw [h2, ← hw_def] at hp
    rw [hp, hn_def]
    exact cross3_dot_right v1 v2
  have hcross : cross3 w n = 0 := by
    rw [hn_def, lagrange, hw1, hw2]
    simp
  have hdotnw : dot3 n w = dot3 n n := by
    have hm : Q * colMat v1 v2 n = colMat v1 v2 w := by
      rw [mul_colMat, h1, h2, ← hw_def]
    have hd := congrArg Matrix.det hm
    rw [Matrix.det_mul, hdet, one_mul, colMat_det, colMat_det, ← hn_def] at hd
    exact hd.symm
  have hwn : w = n := by
    have hl := lagrange n n w
    rw [show cross3 n w = 0 from by rw [cross3_anticomm3 n w, hcross, neg_zero],
      cross3_zero_right] at hl
    rw [hdotnw] at hl
    have hsub := sub_eq_zero.mp hl.symm
    funext i
    have hi := congrFun hsub i
    simp only [Pi.smul_apply, smul_eq_mul] at hi
    exact (mul_left_cancel₀ hnn hi).symm
  have hQM : Q * colMat v1 v2 n = colMat v1 v2 n := by
    rw [mul_colMat, h1, h2, ← hw_def, hwn]
  have hMdet : IsUnit (colMat v1 v2 n).det := by
    rw [colMat_det, ← hn_def]
    exact isUnit_iff_ne_zero.mpr hnn
  calc Q = Q * (colMat v1 v2 n * (colMat v1 v2 n)⁻¹) := by
        rw [Matrix.mul_nonsing_inv _ hMdet, mul_one]
    _ = (Q * colMat v1 v2 n) * (colMat v1 v2 n)⁻¹ := by rw [mul_assoc]
    _ = colMat v1 v2 n * (colMat v1 v2 n)⁻¹ := by rw [hQM]
    _ = 1 := Matrix.mul_nonsing_inv _ hMdet

theorem Rigid.apply_sub (S : Rigid) (p q : Pt) :
    S.apply p - S.apply q = S.R.mulVec (p - q) := by
  simp [Rigid.apply, Matrix.mulVec_sub]

theorem rigid_agree_eq (S T : Rigid) (hS : S.IsProper) (hT : T.IsProper)
    (P : Fin 3 → Pt) (hnc : NonCollinear P)
    (hag : ∀ i, S.apply (P i) = T.apply (P i)) : S = T := by
  obtain ⟨hSo, hSd⟩ := hS
  obtain ⟨hTo, hTd⟩ := hT
  have hTT : T.R * T.R.transpose = 1 := Matrix.mul_eq_one_comm.mp hTo
  have e1 : S.R.mulVec (P 1 - P 0) = T.R.mulVec (P 1 - P 0) := by
    rw [← Rigid.apply_sub, ← Rigid.apply_sub, hag 1, hag 0]
  have e2 : S.R.mulVec (P 2 - P 0) = T.R.mulVec (P 2 - P 0) := by
    rw [← Rigid.apply_sub, ← Rigid.apply_sub, hag 2, hag 0]
  have hQo : (T.R.transpose * S.R).transpose * (T.R.transpose * S.R) = 1 := by
    rw [Matrix.transpose_mul, Matrix.transpose_transpose, mul_assoc,
      ← mul_assoc T.R, hTT, one_mul, hSo]
  have hQd : (T.R.transpose * S.R).det = 1 := by
    rw [Matrix.det_mul, Matrix.det_transpose, hTd, hSd, one_mul]
  have hf1 : (T.R.transpose * S.R).mulVec (P 1 - P 0) = P 1 - P 0 := by
    rw [← Matrix.mulVec_mulVec, e1, Matrix.mulVec_mulVec, hTo,
      Matrix.one_mulVec]
  have hf2 : (T.R.transpose * S.R).mulVec (P 2 - P 0) = P 2 - P 0 := by
    rw [← Matrix.mulVec_mulVec, e2, Matrix.mulVec_mulVec, hTo,
      Matrix.one_mulVec]
  have hQ1 : T.R.transpose * S.R = 1 :=
    rot_fix_plane _ hQo hQd _ _ hf1 hf2 hnc
  have hR : S.R = T.R := by
    calc S.R = (T.R * T.R.transpose) * S.R := by rw [hTT, one_mul]
      _ = T.R * (T.R.transpose * S.R) := by rw [mul_assoc]
      _ = T.R := by rw [hQ1, mul_one]
  have ht : S.t = T.t := by
    have h0 := hag 0
    rw [Rigid.apply, Rigid.apply, hR] at h0
    exact add_left_cancel h0
  cases S
  cases T
  simp_all

theorem residual_nonneg (S : Rigid) (src tgt : Fin 3 → Pt) :
    0 ≤ residual S src tgt :=
  Finset.sum_nonneg fun _ _ => dot3_self_nonneg _

theorem residual_self (T : Rigid) (P : Fin 3 → Pt) :
    residual T P (fun i => T.apply (P i)) = 0 := by
  simp [residual, sqNorm, dot3]

theorem residual_zero_agree (S : Rigid) (src tgt : Fin 3 → Pt)
    (h : residual S src tgt = 0) : ∀ i, S.apply (src i) = tgt i := by
  intro i
  have hterms :=
    (Finset.sum_eq_zero_iff_of_nonneg fun j _ => dot3_self_nonneg
      (S.apply (src j) - tgt j)).mp h i (Finset.mem_univ i)
  exact sub_eq_zero.mp (dot3_self_eq_zero hterms)

/-- Claim C4: for any 3 non-collinear points and any proper rigid transform
`T`, anything the spec-modelled rigid solver may return on
(`P`, `apply_transform(T, P)`) is `T` itself: a proper rigid minimizer of
the sum of squared distances recovers the transform exactly. -/
theorem solve_rigid_recovers (P : Fin 3 → Pt) (T : Rigid)
    (hnc : NonCollinear P) (hT : T.IsProper) (S : Rigid)
    (hS : SolveRigidSpec P (fun i => T.apply (P i)) S) : S = T := by
  obtain ⟨hSp, hmin⟩ := hS
  have hres0 : residual S P (fun i => T.apply (P i)) = 0 :=
    le_antisymm ((residual_self T P) ▸ hmin T hT) (residual_nonneg S P _)
  exact rigid_agree_eq S T hSp hT P hnc (residual_zero_agree S P _ hres0)

theorem solve_rigid_recovers_witness :
    NonCollinear exP ∧ exT.IsProper
    ∧ SolveRigidSpec exP (fun i => exT.apply (exP i)) exT ∧ exT = exT := by
  have hnc : NonCollinear exP := by
    intro h
    have h2 := congrFun h 2
    simp [cross3, exP] at h2
  have hTP : exT.IsProper := by
    constructor
    · ext i j
      fin_cases i <;> fin_cases j <;>
        simp +decide [exT, Matrix.mul_apply, Fin.sum_univ_three,
          Matrix.transpose_apply, Matrix.one_apply]
    · norm_num [exT, Matrix.det_fin_three]
  have hspec : SolveRigidSpec exP (fun i => exT.apply (exP i)) exT :=
    ⟨hTP, fun S2 _ => by rw [residual_self]; exact residual_nonneg S2 exP _⟩
  exact ⟨hnc, hTP, hspec, solve_rigid_recovers exP exT hnc hTP exT hspec⟩

end OSL
